import Mathlib

/- Shallow embedding of RetroArch's "glcore" video driver and its slang filter chain
   (gfx/drivers/gl_core.c and gfx/drivers_shader/shader_gl_core.cpp).

   Pure computations (mip level counting, preset parameter merging, pass-info
   construction) are translated directly from the C/C++ sources.  External
   collaborators (config parser, glslang compiler, GL allocation) are modelled as
   explicit inputs: a Bool success flag or an Option-valued result.  Method bodies
   that are declared but not defined in these sources (Pass::get_output_size,
   Pass::set_pass_info, Framebuffer::set_size, the history ring update of
   gl_core_filter_chain::end_frame) are modelled from the specification and say so
   in their doc comments. -/

/-- 2D size in pixels (gl_core::Size2D). -/
structure Size2D where
  width : Nat
  height : Nat
deriving DecidableEq

/-- gl_core_filter_chain_filter: LINEAR / NEAREST. -/
inductive FilterMode
  | linear
  | nearest
deriving DecidableEq

/-- gl_core_filter_chain_address. -/
inductive AddressMode
  | clampToEdge
  | clampToBorder
  | repeatMode
  | mirroredRepeat
deriving DecidableEq

/-- gfx_wrap_type (RARCH_WRAP_*). -/
inductive GfxWrapType
  | border
  | edge
  | repeatWrap
  | mirroredRepeat
deriving DecidableEq

/-- gl_core::wrap_to_address (shader_gl_core.cpp lines 110-127); the C switch falls
    through to CLAMP_TO_EDGE for the default case, which on this total enum is
    exactly the EDGE case. -/
def wrap_to_address : GfxWrapType → AddressMode
  | GfxWrapType.edge => AddressMode.clampToEdge
  | GfxWrapType.border => AddressMode.clampToBorder
  | GfxWrapType.repeatWrap => AddressMode.repeatMode
  | GfxWrapType.mirroredRepeat => AddressMode.mirroredRepeat

/-- The loop of gl_core::num_miplevels (shader_gl_core.cpp lines 58-67):
    `levels = 0; while (size) { levels++; size >>= 1; }`. -/
def mip_loop (size : Nat) : Nat :=
  if size = 0 then 0 else mip_loop (size / 2) + 1
decreasing_by
  exact Nat.div_lt_self (Nat.pos_of_ne_zero (by assumption)) (by omega)

/-- gl_core::num_miplevels: mip levels for a `width` by `height` image. -/
def num_miplevels (width height : Nat) : Nat :=
  mip_loop (max width height)

/-- Level count chosen by gl_core_filter_chain_load_lut (shader_gl_core.cpp line 519):
    `levels = shader->mipmap ? num_miplevels(w, h) : 1`. -/
def lut_levels (mipmap : Bool) (width height : Nat) : Nat :=
  if mipmap then num_miplevels width height else 1

theorem mip_loop_eq_log (s : Nat) (hs : 0 < s) : mip_loop s = Nat.log 2 s + 1 := by
  induction s using Nat.strong_induction_on with
  | _ s ih =>
    rw [mip_loop]
    have hns : ¬ s = 0 := by omega
    simp only [hns, if_false]
    rcases Nat.lt_or_ge s 2 with h2 | h2
    · have h1 : s = 1 := by omega
      subst h1
      rw [mip_loop]
      simp [Nat.log_one_right]
    · have hdiv : 0 < s / 2 := by omega
      have hlt : s / 2 < s := Nat.div_lt_self (by omega) (by omega)
      rw [ih (s / 2) hlt hdiv]
      have hlog : Nat.log 2 (s / 2) = Nat.log 2 s - 1 := Nat.log_div_base 2 s
      have hpos : 0 < Nat.log 2 s := Nat.log_pos (by omega) h2
      omega

/-- GL_CORE_NUM_TEXTURES (gl_core.c line 48): size of the streamed-texture ring. -/
def GL_CORE_NUM_TEXTURES : Nat := 4

/-- The four filter-chain calls made per frame by the driver. -/
inductive ChainOp
  | setInputTexture
  | buildOffscreenPasses
  | buildViewportPass
  | endFrame
deriving DecidableEq

/-- Observable actions performed by gl_core_frame, in program order. -/
inductive FrameEv
  | cpuUpload (slot : Nat)
  | setViewport
  | chainCall (op : ChainOp)
  | clearBackbuffer
  | updateTitle
  | swapBuffers
deriving DecidableEq

def chain_op_of : FrameEv → Option ChainOp
  | FrameEv.chainCall op => some op
  | _ => none

/-- Driver state relevant to the streamed-texture ring (gl_core_t::textures_index). -/
structure GlFrameState where
  textures_index : Nat
deriving DecidableEq

/-- gl_core_frame (gl_core.c lines 743-780): uploads the CPU frame into
    textures[textures_index], sets the viewport, then drives the filter chain
    (set_input_texture, build_offscreen_passes, clear backbuffer,
    build_viewport_pass, end_frame), presents, and advances the ring index with
    `(textures_index + 1) & (GL_CORE_NUM_TEXTURES - 1)`.  The returned event list
    records the calls in program order. -/
def gl_core_frame (st : GlFrameState) : GlFrameState × List FrameEv :=
  (⟨(st.textures_index + 1) &&& (GL_CORE_NUM_TEXTURES - 1)⟩,
   [FrameEv.cpuUpload st.textures_index,
    FrameEv.setViewport,
    FrameEv.chainCall ChainOp.setInputTexture,
    FrameEv.chainCall ChainOp.buildOffscreenPasses,
    FrameEv.clearBackbuffer,
    FrameEv.chainCall ChainOp.buildViewportPass,
    FrameEv.chainCall ChainOp.endFrame,
    FrameEv.updateTitle,
    FrameEv.swapBuffers])

/-- Driver state after `k` successive calls to gl_core_frame. -/
def nth_frame_state (st : GlFrameState) : Nat → GlFrameState
  | 0 => st
  | Nat.succ k => (gl_core_frame (nth_frame_state st k)).1

/-- gl_core_filter_chain_scale (SCALE_ORIGINAL / SOURCE / VIEWPORT / ABSOLUTE). -/
inductive ScaleType
  | original
  | source
  | viewport
  | absolute
deriving DecidableEq

/-- gl_core_filter_chain_pass_info.  Scale factors are modelled as rationals
    standing for the C float fields; the absolute case stores `float(abs)` in the
    scale field exactly as the source does. -/
structure PassInfoQ where
  scale_type_x : ScaleType
  scale_type_y : ScaleType
  scale_x : Rat
  scale_y : Rat
  rt_format : Nat
  source_filter : FilterMode
  mip_filter : FilterMode
  address : AddressMode
  max_levels : Nat
deriving DecidableEq

/-- The defaults assigned at shader_gl_core.cpp lines 600-608 before per-pass
    configuration. -/
def default_pass_info : PassInfoQ :=
  ⟨ScaleType.original, ScaleType.original, 0, 0, 0,
   FilterMode.linear, FilterMode.linear, AddressMode.repeatMode, 0⟩

/-- A #pragma parameter declaration as reported by glslang reflection
    (glslang_output::meta.parameters), and as stored in
    video_shader_parameter.  Numeric fields stand for the C floats. -/
structure MetaParam where
  id : String
  desc : String
  initial : Rat
  minimum : Rat
  maximum : Rat
  step : Rat
deriving DecidableEq

/-- RARCH_FILTER_* of a preset pass. -/
inductive RarchFilter
  | unspec
  | linear
  | nearest
deriving DecidableEq

/-- RARCH_SCALE_* of a preset pass fbo. -/
inductive RarchScaleType
  | input
  | absolute
  | viewport
deriving DecidableEq

/-- gfx_fbo_scale: the fbo override block of a preset pass. -/
structure FboScale where
  valid : Bool
  srgb_fbo : Bool
  fp_fbo : Bool
  type_x : RarchScaleType
  type_y : RarchScaleType
  scale_x : Rat
  scale_y : Rat
  abs_x : Nat
  abs_y : Nat
deriving DecidableEq

/-- The fields of video_shader_pass consumed by chain creation. -/
structure VideoShaderPassSrc where
  filter : RarchFilter
  wrap : GfxWrapType
  mipmap : Bool
  frame_count_mod : Nat
  alias_name : Option String
  fbo : FboScale
deriving DecidableEq

/-- The slang render-target formats reachable in chain creation. -/
inductive SlangFormat
  | unknown
  | r8g8b8a8_unorm
  | r8g8b8a8_srgb
  | r16g16b16a16_sfloat
deriving DecidableEq

/-- gl_core::convert_glslang_format restricted to the formats reachable here
    (GL_RGBA8 = 0x8058, GL_SRGB8 = 0x8C41, GL_RGBA16F = 0x881A; default 0). -/
def convert_glslang_format : SlangFormat → Nat
  | SlangFormat.unknown => 0
  | SlangFormat.r8g8b8a8_unorm => 32856
  | SlangFormat.r8g8b8a8_srgb => 35905
  | SlangFormat.r16g16b16a16_sfloat => 34842

/-- Result of glslang_compile_shader for one pass: reflection parameters, the
    shader-declared name, and the preferred render-target format. -/
structure CompiledOutput where
  parameters : List MetaParam
  shader_name : Option String
  rt_format : SlangFormat
deriving DecidableEq

/-- One preset pass together with its compile result (none = compile failure). -/
structure PassSrc where
  src : VideoShaderPassSrc
  compile : Option CompiledOutput
deriving DecidableEq

/-- Inputs to gl_core_filter_chain_create_from_preset.  The Bool flags stand for
    the success of the external collaborators invoked at the corresponding points
    of the function: config_file_new + video_shader_read_conf_cgp (conf_ok),
    gl_core_filter_chain_load_luts (luts_ok),
    video_shader_resolve_current_parameters (resolve_ok) and chain->init()
    (init_ok). -/
structure CreateInput where
  conf_ok : Bool
  luts_ok : Bool
  passes : List PassSrc
  resolve_ok : Bool
  init_ok : Bool
deriving DecidableEq

/-- Shader blobs installed into a pass: the fixed built-in opaque pass-through
    stages (opaque_vert / opaque_frag) or the compiled output of preset pass
    `passIndex`. -/
inductive SpirV
  | opaqueVert
  | opaqueFrag
  | compiled (passIndex : Nat) (vertexStage : Bool)
deriving DecidableEq

/-- Per-pass state accumulated in the chain by creation: pass info, installed
    shader stages, frame-count period and name. -/
structure PassEntry where
  info : PassInfoQ
  vertex : Option SpirV
  fragment : Option SpirV
  period : Nat
  pass_name : Option String
deriving DecidableEq

instance : Inhabited PassEntry :=
  ⟨⟨default_pass_info, none, none, 0, none⟩⟩

/-- The pass list owned by a gl_core_filter_chain. -/
structure FilterChainM where
  passes : List PassEntry
deriving DecidableEq

/-- Modelled from the spec: the bodies of gl_core_filter_chain::set_pass_info,
    set_shader, set_frame_count_period, set_pass_name and set_num_passes are not
    part of these sources (only their declarations are).  Per the spec the
    FilterChain owns the ordered sequence of Passes; configuring pass index `i`
    grows the sequence to `i + 1` entries (filling with default-initialised
    passes) and updates entry `i`. -/
def update_pass_list (f : PassEntry → PassEntry) : List PassEntry → Nat → List PassEntry
  | [], 0 => [f default]
  | [], Nat.succ n => default :: update_pass_list f [] n
  | e :: es, 0 => f e :: es
  | e :: es, Nat.succ n => e :: update_pass_list f es n

def chain_update (c : FilterChainM) (i : Nat) (f : PassEntry → PassEntry) : FilterChainM :=
  ⟨update_pass_list f c.passes i⟩

def chain_set_shader (c : FilterChainM) (i : Nat) (vertexStage : Bool) (s : SpirV) : FilterChainM :=
  chain_update c i (fun e =>
    if vertexStage then { e with vertex := some s } else { e with fragment := some s })

def chain_set_frame_count_period (c : FilterChainM) (i : Nat) (period : Nat) : FilterChainM :=
  chain_update c i (fun e => { e with period := period })

def chain_set_pass_name (c : FilterChainM) (i : Nat) (n : String) : FilterChainM :=
  chain_update c i (fun e => { e with pass_name := some n })

def chain_set_pass_info (c : FilterChainM) (i : Nat) (info : PassInfoQ) : FilterChainM :=
  chain_update c i (fun e => { e with info := info })

/-- The per-pass gl_core_filter_chain_pass_info computed by
    gl_core_filter_chain_create_from_preset (shader_gl_core.cpp lines 600-608 and
    677-782): source filter from the pass override or the chain default, address
    from the wrap mode, max_levels = ~0u when the next pass requests mipmapped
    input else 1, mip filter linear iff the pass filter is not nearest and more
    than one level is kept, and the scale/format block depending on fbo.valid.
    `total` is shader->passes and `i` the pass index. -/
def make_pass_info (filt : FilterMode) (total i : Nat) (pass : VideoShaderPassSrc)
    (meta_rt : SlangFormat) (next : Option VideoShaderPassSrc) : PassInfoQ :=
  let source_filter := match pass.filter with
    | RarchFilter.unspec => filt
    | RarchFilter.linear => FilterMode.linear
    | RarchFilter.nearest => FilterMode.nearest
  let address := wrap_to_address pass.wrap
  let max_levels : Nat := match next with
    | some np => if np.mipmap then 4294967295 else 1
    | none => 1
  let mip_filter :=
    if pass.filter ≠ RarchFilter.nearest ∧ 1 < max_levels
    then FilterMode.linear else FilterMode.nearest
  let rt_meta := if meta_rt = SlangFormat.unknown then SlangFormat.r8g8b8a8_unorm else meta_rt
  if pass.fbo.valid = false then
    if i + 1 = total then
      ⟨ScaleType.viewport, ScaleType.viewport, 1, 1, 0,
       source_filter, mip_filter, address, max_levels⟩
    else
      ⟨ScaleType.source, ScaleType.source, 1, 1, convert_glslang_format rt_meta,
       source_filter, mip_filter, address, max_levels⟩
  else
    let rt_final :=
      if pass.fbo.srgb_fbo then SlangFormat.r8g8b8a8_srgb
      else if pass.fbo.fp_fbo then SlangFormat.r16g16b16a16_sfloat
      else rt_meta
    let stx := match pass.fbo.type_x with
      | RarchScaleType.input => ScaleType.source
      | RarchScaleType.absolute => ScaleType.absolute
      | RarchScaleType.viewport => ScaleType.viewport
    let sx : Rat := match pass.fbo.type_x with
      | RarchScaleType.input => pass.fbo.scale_x
      | RarchScaleType.absolute => (pass.fbo.abs_x : Rat)
      | RarchScaleType.viewport => pass.fbo.scale_x
    let sty := match pass.fbo.type_y with
      | RarchScaleType.input => ScaleType.source
      | RarchScaleType.absolute => ScaleType.absolute
      | RarchScaleType.viewport => ScaleType.viewport
    let sy : Rat := match pass.fbo.type_y with
      | RarchScaleType.input => pass.fbo.scale_y
      | RarchScaleType.absolute => (pass.fbo.abs_y : Rat)
      | RarchScaleType.viewport => pass.fbo.scale_y
    ⟨stx, sty, sx, sy, convert_glslang_format rt_final,
     source_filter, mip_filter, address, max_levels⟩

/-- The duplicate-parameter handling of chain creation (shader_gl_core.cpp lines
    617-660), folded over one pass's reflected parameters.  `accepted` is the
    shader->parameters array built so far (initially empty, num_parameters = its
    length).  Each parameter first passes the GFX_MAX_PARAMETERS bound `cap`;
    then, if a parameter with the same id was already registered, it is accepted
    only when desc, initial, minimum, maximum and step all match the first
    declaration (the source rejects when any of them differs), otherwise it is
    appended. -/
def process_pass_params (cap : Nat) (accepted : List MetaParam) :
    List MetaParam → Option (List MetaParam)
  | [] => some accepted
  | m :: rest =>
    if cap ≤ accepted.length then none
    else
      match accepted.find? (fun p => m.id = p.id) with
      | some p =>
        if m.desc = p.desc ∧ m.initial = p.initial ∧ m.minimum = p.minimum ∧
           m.maximum = p.maximum ∧ m.step = p.step
        then process_pass_params cap accepted rest
        else none
      | none => process_pass_params cap (accepted ++ [m]) rest

/-- The per-pass loop of gl_core_filter_chain_create_from_preset (lines 592-785):
    for pass `i`, compile the shader (failure aborts), merge its reflected
    parameters, install the vertex and fragment stages, the frame-count period,
    the shader-declared name then the preset alias override, and finally the
    computed pass info. -/
def install_pass (filt : FilterMode) (total i : Nat) (p : PassSrc) (out : CompiledOutput)
    (next : Option VideoShaderPassSrc) (chain : FilterChainM) : FilterChainM :=
  let c1 := chain_set_shader chain i true (SpirV.compiled i true)
  let c2 := chain_set_shader c1 i false (SpirV.compiled i false)
  let c3 := chain_set_frame_count_period c2 i p.src.frame_count_mod
  let c4 := match out.shader_name with
    | some n => chain_set_pass_name c3 i n
    | none => c3
  let c5 := match p.src.alias_name with
    | some a => chain_set_pass_name c4 i a
    | none => c4
  chain_set_pass_info c5 i (make_pass_info filt total i p.src out.rt_format next)

def process_passes (cap : Nat) (filt : FilterMode) (total : Nat) :
    Nat → List MetaParam → FilterChainM → List PassSrc →
    Option (List MetaParam × FilterChainM)
  | _, params, chain, [] => some (params, chain)
  | i, params, chain, p :: rest =>
    match p.compile with
    | none => none
    | some out =>
      match process_pass_params cap params out.parameters with
      | none => none
      | some params' =>
        process_passes cap filt total (i + 1) params'
          (install_pass filt total i p out ((rest.head?).map (fun q => q.src)) chain) rest

/-- The pass info of the appended terminal blit pass (shader_gl_core.cpp lines
    789-802): viewport scale 1.0 x 1.0, swapchain format, chain default source
    filter, nearest mip filter, clamp-to-edge, max_levels 0. -/
def final_pass_info (filt : FilterMode) : PassInfoQ :=
  ⟨ScaleType.viewport, ScaleType.viewport, 1, 1, 0,
   filt, FilterMode.nearest, AddressMode.clampToEdge, 0⟩

/-- Lines 787-815: when the last preset pass renders to an FBO, append pass
    `shader->passes` with the viewport pass info and the built-in opaque
    pass-through vertex and fragment shaders. -/
def append_final_pass (filt : FilterMode) (c : FilterChainM) (n : Nat) : FilterChainM :=
  chain_set_shader
    (chain_set_shader (chain_set_pass_info c n (final_pass_info filt)) n true SpirV.opaqueVert)
    n false SpirV.opaqueFrag

/-- gl_core_filter_chain_create_from_preset (shader_gl_core.cpp lines 563-826).
    Every failure (config parse, LUT load, shader compile, parameter conflict or
    cap overflow, parameter resolution, chain init) returns none; only a fully
    constructed chain is ever returned.  The source reads
    shader->pass[shader->passes - 1] and so requires at least one pass; an empty
    pass list is mapped to failure (the config reader rejects such presets). -/
def gl_core_filter_chain_create_from_preset (cap : Nat) (filt : FilterMode)
    (inp : CreateInput) : Option FilterChainM :=
  if inp.conf_ok = false then none
  else
    match inp.passes.getLast? with
    | none => none
    | some lastp =>
      if inp.luts_ok = false then none
      else
        match process_passes cap filt inp.passes.length 0 [] ⟨[]⟩ inp.passes with
        | none => none
        | some pc =>
          let chain :=
            if lastp.src.fbo.valid
            then append_final_pass filt pc.2 inp.passes.length
            else pc.2
          if inp.resolve_ok = false then none
          else if inp.init_ok = false then none
          else some chain

/-- Whether the last pass of the preset targets an FBO (last_pass_is_fbo,
    shader_gl_core.cpp line 581). -/
def last_pass_uses_fbo (inp : CreateInput) : Bool :=
  ((inp.passes.getLast?).map (fun p => p.src.fbo.valid)).getD false

/-- rarch_shader_type values reachable in gl_core_set_shader. -/
inductive RarchShaderType
  | noShader
  | cg
  | glsl
  | slang
deriving DecidableEq

/-- Driver state relevant to shader hot-swap: the currently installed chain. -/
structure GlCoreState where
  filter_chain : Option FilterChainM
deriving DecidableEq

/-- gl_core_init_default_filter_chain (gl_core.c lines 270-286): installs the
    result of gl_core_filter_chain_create_default as the chain, reporting whether
    that built-in stock chain was created. -/
def gl_core_init_default_filter_chain (default_result : Option FilterChainM) :
    GlCoreState × Bool :=
  (⟨default_result⟩, default_result.isSome)

/-- gl_core_set_shader (gl_core.c lines 616-647).  `preset_result` stands for
    gl_core_filter_chain_create_from_preset applied to a path, `default_result`
    for gl_core_filter_chain_create_default.  A non-slang type with a path is
    demoted to no path; the old chain is freed; with no path the stock chain is
    installed and true returned; with a path, preset failure installs the stock
    chain and returns false, success installs the preset chain and returns
    true. -/
def gl_core_set_shader (_gl : GlCoreState) (type : RarchShaderType) (path : Option String)
    (preset_result : String → Option FilterChainM)
    (default_result : Option FilterChainM) : GlCoreState × Bool :=
  let path := if type ≠ RarchShaderType.slang ∧ path.isSome then none else path
  match path with
  | none => ((gl_core_init_default_filter_chain default_result).1, true)
  | some p =>
    match preset_result p with
    | some c => (⟨some c⟩, true)
    | none => ((gl_core_init_default_filter_chain default_result).1, false)

/-- Modelled from the spec: the body of gl_core::Pass::get_output_size is not in
    these sources (only its declaration, shader_gl_core.cpp lines 376-377).  Rule
    table of spec section 4.2: Input-relative scales round(sourceSize * scale),
    Viewport-relative scales round(viewportSize * scale), Absolute takes the
    literal pixel value stored in the scale field, and the Unscaled/Original kind
    follows the upstream viewport size. -/
def get_output_size (viewport original source : Size2D) (info : PassInfoQ) : Size2D :=
  let axis : ScaleType → Rat → Nat → Nat → Nat → Nat := fun ty sc vp _og src =>
    match ty with
    | ScaleType.source => (round ((src : Rat) * sc)).toNat
    | ScaleType.viewport => (round ((vp : Rat) * sc)).toNat
    | ScaleType.absolute => (round sc).toNat
    | ScaleType.original => vp
  ⟨axis info.scale_type_x info.scale_x viewport.width original.width source.width,
   axis info.scale_type_y info.scale_y viewport.height original.height source.height⟩

/-- GPU state of a pass's owned framebuffer: current size, format, and a counter
    of GPU image allocations performed so far. -/
structure FramebufferM where
  size : Size2D
  format : Nat
  allocations : Nat
deriving DecidableEq

/-- Modelled from the spec: Framebuffer::set_size (spec section 4.1) is a no-op
    when size and format are unchanged; otherwise it releases the old GPU image
    and allocates a new one sized exactly to the request (counted in
    `allocations`). -/
def fb_set_size (fb : FramebufferM) (size : Size2D) (format : Nat) : FramebufferM :=
  if size = fb.size ∧ format = fb.format then fb
  else ⟨size, format, fb.allocations + 1⟩

/-- Runtime state of one gl_core::Pass relevant to sizing. -/
structure PassM where
  final_pass : Bool
  current_viewport : Size2D
  pass_info : PassInfoQ
  framebuffer : Option FramebufferM
deriving DecidableEq

/-- Modelled from the spec: the body of gl_core::Pass::set_pass_info is not in
    these sources (only its declaration, shader_gl_core.cpp lines 300-303).  Per
    spec section 4.2 it computes the pass's OutputSize from the scale rule table
    and builds or resizes the owned Framebuffer to that size unless this is the
    terminal viewport pass; resizing goes through the set_size contract of
    section 4.1, so an unchanged size and format allocates nothing. -/
def pass_set_pass_info (p : PassM) (max_original max_source : Size2D)
    (info : PassInfoQ) : PassM × Size2D :=
  let out := get_output_size p.current_viewport max_original max_source info
  let fb : Option FramebufferM :=
    if p.final_pass then none
    else
      match p.framebuffer with
      | none => some ⟨out, info.rt_format, 1⟩
      | some fb => some (fb_set_size fb out info.rt_format)
  ({ p with pass_info := info, framebuffer := fb }, out)

/-- Modelled from the spec: the history-ring update of
    gl_core_filter_chain::end_frame is not in these sources (only the delegating
    wrapper at shader_gl_core.cpp lines 907-910).  Per spec sections 3 and 4.3
    the ring holds the most recent original input frames, capacity K, oldest
    overwritten: endFrame shifts the ring and inserts the current input. -/
def history_push (K : Nat) (ring : List Nat) (frame : Nat) : List Nat :=
  (frame :: ring).take K

/-- Ring contents after presenting frames 0, 1, ..., N-1 in order, starting from
    the empty ring produced by init_history / a reset. -/
def history_after_frames (K : Nat) : Nat → List Nat
  | 0 => []
  | Nat.succ n => history_push K (history_after_frames K n) n

theorem update_pass_list_length (f : PassEntry → PassEntry) :
    ∀ (l : List PassEntry) (i : Nat),
      (update_pass_list f l i).length = max l.length (i + 1) := by
  intro l
  induction l with
  | nil =>
    intro i
    induction i with
    | zero => simp [update_pass_list]
    | succ n ihn => simp [update_pass_list, ihn]
  | cons e es ih =>
    intro i
    cases i with
    | zero => simp [update_pass_list]
    | succ n => simp [update_pass_list, ih n]; omega

theorem update_pass_list_at_length (f : PassEntry → PassEntry) (l : List PassEntry) :
    update_pass_list f l l.length = l ++ [f default] := by
  induction l with
  | nil => simp [update_pass_list]
  | cons e es ih => simp [update_pass_list, ih]

theorem update_pass_list_concat (f : PassEntry → PassEntry) (l : List PassEntry)
    (e : PassEntry) : update_pass_list f (l ++ [e]) l.length = l ++ [f e] := by
  induction l with
  | nil => simp [update_pass_list]
  | cons a as ih => simp [update_pass_list, ih]

theorem chain_update_length (c : FilterChainM) (i : Nat) (f : PassEntry → PassEntry) :
    (chain_update c i f).passes.length = max c.passes.length (i + 1) :=
  update_pass_list_length f c.passes i

theorem append_final_pass_spec (filt : FilterMode) (c : FilterChainM) (n : Nat)
    (h : c.passes.length = n) :
    (append_final_pass filt c n).passes =
      c.passes ++ [⟨final_pass_info filt, some SpirV.opaqueVert, some SpirV.opaqueFrag, 0, none⟩] := by
  subst h
  show update_pass_list _ (update_pass_list _ (update_pass_list _ c.passes c.passes.length) c.passes.length) c.passes.length = _
  rw [update_pass_list_at_length, update_pass_list_concat, update_pass_list_concat]
  rfl

theorem install_pass_length (filt : FilterMode) (total i : Nat) (p : PassSrc)
    (out : CompiledOutput) (next : Option VideoShaderPassSrc) (chain : FilterChainM) :
    (install_pass filt total i p out next chain).passes.length =
      max chain.passes.length (i + 1) := by
  unfold install_pass
  cases out.shader_name with
  | none =>
    cases p.src.alias_name with
    | none =>
      simp [chain_set_shader, chain_set_frame_count_period, chain_set_pass_name,
        chain_set_pass_info, chain_update_length]
    | some a =>
      simp [chain_set_shader, chain_set_frame_count_period, chain_set_pass_name,
        chain_set_pass_info, chain_update_length]
  | some n =>
    cases p.src.alias_name with
    | none =>
      simp [chain_set_shader, chain_set_frame_count_period, chain_set_pass_name,
        chain_set_pass_info, chain_update_length]
    | some a =>
      simp [chain_set_shader, chain_set_frame_count_period, chain_set_pass_name,
        chain_set_pass_info, chain_update_length]

theorem process_passes_length (cap : Nat) (filt : FilterMode) (total : Nat) :
    ∀ (ps : List PassSrc) (i : Nat) (params : List MetaParam) (c : FilterChainM)
      (pc : List MetaParam × FilterChainM),
      c.passes.length = i →
      process_passes cap filt total i params c ps = some pc →
      pc.2.passes.length = i + ps.length := by
  intro ps
  induction ps with
  | nil =>
    intro i params c pc hlen h
    simp only [process_passes, Option.some.injEq] at h
    subst h
    simpa using hlen
  | cons p rest ih =>
    intro i params c pc hlen h
    simp only [process_passes] at h
    split at h
    · cases h
    · rename_i out hcomp
      split at h
      · cases h
      · rename_i params2 hpp
        have hlen2 : (install_pass filt total i p out
            ((rest.head?).map (fun q => q.src)) c).passes.length = i + 1 := by
          rw [install_pass_length, hlen]; omega
        have hres := ih (i + 1) params2 _ pc hlen2 h
        rw [List.length_cons]
        omega

/-- The reflected parameter ids contributed by one pass (empty if its shader does
    not compile, in which case creation fails anyway). -/
def pass_meta_ids (p : PassSrc) : List String :=
  match p.compile with
  | some o => o.parameters.map (fun m => m.id)
  | none => []

/-- All reflected parameter ids of the preset, in pass order. -/
def all_meta_ids : List PassSrc → List String
  | [] => []
  | p :: ps => pass_meta_ids p ++ all_meta_ids ps

theorem process_pass_params_props (cap : Nat) :
    ∀ (metas accepted acc' : List MetaParam),
      process_pass_params cap accepted metas = some acc' →
      acc'.length ≤ max accepted.length cap
      ∧ (∀ s, s ∈ accepted.map (fun m => m.id) → s ∈ acc'.map (fun m => m.id))
      ∧ (∀ s, s ∈ metas.map (fun m => m.id) → s ∈ acc'.map (fun m => m.id))
      ∧ ((accepted.map (fun m => m.id)).Nodup → (acc'.map (fun m => m.id)).Nodup) := by
  intro metas
  induction metas with
  | nil =>
    intro accepted acc' h
    simp only [process_pass_params, Option.some.injEq] at h
    subst h
    refine ⟨Nat.le_max_left _ _, fun s hs => hs, ?_, fun hh => hh⟩
    intro s hs
    simp at hs
  | cons m rest ih =>
    intro accepted acc' h
    simp only [process_pass_params] at h
    split at h
    · cases h
    · rename_i hcap
      split at h
      · rename_i p hfind
        split at h
        · obtain ⟨h1, h2, h3, h4⟩ := ih accepted acc' h
          refine ⟨h1, h2, ?_, h4⟩
          intro s hs
          rw [List.map_cons] at hs
          rcases List.mem_cons.mp hs with hs | hs
          · have hp_mem : p ∈ accepted := List.mem_of_find?_eq_some hfind
            have hp_eq : m.id = p.id := by
              have := List.find?_some hfind
              simpa using this
            subst hs
            rw [hp_eq]
            exact h2 _ (List.mem_map.mpr ⟨p, hp_mem, rfl⟩)
          · exact h3 s hs
        · cases h
      · rename_i hfind
        obtain ⟨h1, h2, h3, h4⟩ := ih (accepted ++ [m]) acc' h
        have hsub : ∀ s, s ∈ accepted.map (fun m => m.id) → s ∈ acc'.map (fun m => m.id) := by
          intro s hs
          apply h2
          rw [List.map_append]
          exact List.mem_append_left _ hs
        refine ⟨?_, hsub, ?_, ?_⟩
        · have hlen : (accepted ++ [m]).length = accepted.length + 1 := by simp
          rw [hlen] at h1
          omega
        · intro s hs
          rw [List.map_cons] at hs
          rcases List.mem_cons.mp hs with hs | hs
          · subst hs
            apply h2
            rw [List.map_append]
            exact List.mem_append_right _ (by simp)
          · exact h3 s hs
        · intro hnd
          apply h4
          rw [List.map_append]
          have hnotin : m.id ∉ accepted.map (fun m => m.id) := by
            intro hmem
            rcases List.mem_map.mp hmem with ⟨q, hq_mem, hq_eq⟩
            have hq := List.find?_eq_none.mp hfind q hq_mem
            simp at hq
            exact hq hq_eq.symm
          simp [List.nodup_append, hnd, hnotin]

theorem process_passes_params_props (cap : Nat) (filt : FilterMode) (total : Nat) :
    ∀ (ps : List PassSrc) (i : Nat) (params : List MetaParam) (c : FilterChainM)
      (pc : List MetaParam × FilterChainM),
      process_passes cap filt total i params c ps = some pc →
      pc.1.length ≤ max params.length cap
      ∧ (∀ s, s ∈ params.map (fun m => m.id) → s ∈ pc.1.map (fun m => m.id))
      ∧ (∀ s, s ∈ all_meta_ids ps → s ∈ pc.1.map (fun m => m.id))
      ∧ ((params.map (fun m => m.id)).Nodup → (pc.1.map (fun m => m.id)).Nodup) := by
  intro ps
  induction ps with
  | nil =>
    intro i params c pc h
    simp only [process_passes, Option.some.injEq] at h
    subst h
    refine ⟨Nat.le_max_left _ _, fun s hs => hs, ?_, fun hh => hh⟩
    intro s hs
    simp [all_meta_ids] at hs
  | cons p rest ih =>
    intro i params c pc h
    simp only [process_passes] at h
    split at h
    · cases h
    · rename_i out hcomp
      split at h
      · cases h
      · rename_i params2 hpp
        obtain ⟨q1, q2, q3, q4⟩ := process_pass_params_props cap out.parameters params params2 hpp
        obtain ⟨p1, p2, p3, p4⟩ := ih (i + 1) params2 _ pc h
        refine ⟨by omega, fun s hs => p2 s (q2 s hs), ?_, fun hnd => p4 (q4 hnd)⟩
        intro s hs
        simp only [all_meta_ids] at hs
        rcases List.mem_append.mp hs with hs | hs
        · have hids : pass_meta_ids p = out.parameters.map (fun m => m.id) := by
            simp [pass_meta_ids, hcomp]
          rw [hids] at hs
          exact p2 s (q3 s hs)
        · exact p3 s hs

theorem history_after_frames_formula (K : Nat) :
    ∀ N, history_after_frames K N = (List.range (min N K)).map (fun i => N - 1 - i) := by
  intro N
  induction N with
  | zero => simp [history_after_frames]
  | succ n ihn =>
    rw [history_after_frames, history_push, ihn]
    cases K with
    | zero => simp
    | succ k =>
      rw [List.take_succ_cons, ← List.map_take, List.take_range]
      have hmin : min k (min n (k + 1)) = min n k := by omega
      rw [hmin]
      have hmin2 : min (n + 1) (k + 1) = min n k + 1 := by omega
      rw [hmin2, List.range_succ_eq_map, List.map_cons, List.map_map]
      congr 1
      have hfun : ((fun i => n + 1 - 1 - i) ∘ Nat.succ) = fun i : Nat => n - 1 - i := by
        funext i
        simp [Function.comp]
        omega
      rw [hfun]

/-- C4 (counterexample): the claim says a mipmapped allocation for a 3 x 1 image
    gets ceil(log2(max(3,1))) + 1 = 3 levels, but gl_core::num_miplevels (used by
    gl_core_filter_chain_load_lut) allocates only 2 levels for it. -/
theorem lut_levels_ceil_claim_false :
    lut_levels true 3 1 = 2 ∧ Nat.clog 2 (max 3 1) + 1 = 3 := by
  constructor
  · simp only [lut_levels, if_true, num_miplevels]
    norm_num
    rw [mip_loop]
    norm_num
    rw [mip_loop]
    norm_num
    rw [mip_loop]
    norm_num
  · norm_num
    rw [Nat.clog_of_two_le (by norm_num) (by norm_num)]
    norm_num
    rw [Nat.clog_eq_one (by norm_num) (by norm_num)]

/-- C4 (amended): for dimensions with max(w,h) >= 1, the LUT allocation uses
    floor(log2(max(w,h))) + 1 mip levels when mipmaps are requested, and 1
    otherwise. -/
theorem lut_levels_formula (mipmap : Bool) (w h : Nat) (hwh : 1 ≤ max w h) :
    lut_levels mipmap w h = if mipmap then Nat.log 2 (max w h) + 1 else 1 := by
  cases mipmap with
  | false => rfl
  | true =>
    simp only [lut_levels, if_true, num_miplevels]
    exact mip_loop_eq_log _ hwh

theorem lut_levels_formula_witness : lut_levels true 640 480 = 10 := by
  have h := lut_levels_formula true 640 480 (by norm_num)
  rw [h]
  norm_num
  rw [Nat.log_eq_of_pow_le_of_lt_pow (by norm_num) (by norm_num : (640 : Nat) < 2 ^ 10)]

/-- C5: when gl_core_set_shader is given a slang preset path whose chain creation
    fails, the driver installs the built-in stock pass-through chain (assuming
    that stock chain itself builds) instead of leaving the handle without a
    chain, and returns false; the function is total, so a preset failure cannot
    crash the frontend. -/
theorem set_shader_falls_back_to_stock (gl : GlCoreState) (p : String)
    (preset_result : String → Option FilterChainM) (stock : FilterChainM)
    (hfail : preset_result p = none) :
    gl_core_set_shader gl RarchShaderType.slang (some p) preset_result (some stock)
      = (⟨some stock⟩, false) := by
  simp [gl_core_set_shader, gl_core_init_default_filter_chain, hfail]

theorem set_shader_falls_back_witness :
    gl_core_set_shader ⟨none⟩ RarchShaderType.slang (some "crt.slangp")
      (fun _ => none) (some ⟨[]⟩) = (⟨some ⟨[]⟩⟩, false) :=
  set_shader_falls_back_to_stock ⟨none⟩ "crt.slangp" (fun _ => none) ⟨[]⟩ rfl

/-- C7: in every frame rendered by gl_core_frame, the filter-chain operations
    occur in exactly this order, each exactly once: set_input_texture, then
    build_offscreen_passes, then build_viewport_pass, then end_frame. -/
theorem frame_chain_call_order (st : GlFrameState) :
    (gl_core_frame st).2.filterMap chain_op_of =
      [ChainOp.setInputTexture, ChainOp.buildOffscreenPasses,
       ChainOp.buildViewportPass, ChainOp.endFrame] := rfl

/-- C8: for a history ring of capacity K, after N presented frames with N >= K
    the ring holds exactly the input frames N-1 down to N-K in order, the ring
    being pushed once per presented frame; before any frame (and after a reset)
    it is empty. -/
theorem history_ring_after_frames (K N : Nat) (h : K ≤ N) :
    history_after_frames K N = (List.range K).map (fun i => N - 1 - i)
    ∧ history_after_frames K 0 = [] := by
  constructor
  · rw [history_after_frames_formula, Nat.min_eq_right h]
  · rfl

theorem history_ring_after_frames_witness : history_after_frames 2 3 = [2, 1] := by
  rw [(history_ring_after_frames 2 3 (by norm_num)).1]
  decide

/-- C9: a successful frame uploads the CPU frame into the slot selected by the
    current ring index (the first event of the frame), the index then advances by
    exactly one modulo GL_CORE_NUM_TEXTURES = 4, and any four consecutive frames
    use four pairwise distinct texture slots. -/
theorem frame_texture_ring (idx : Nat) (h : idx < 4) :
    (gl_core_frame ⟨idx⟩).2.head? = some (FrameEv.cpuUpload idx)
    ∧ (gl_core_frame ⟨idx⟩).1.textures_index = (idx + 1) % GL_CORE_NUM_TEXTURES
    ∧ (∀ i, i < 4 → ∀ j, j < 4 → i ≠ j →
        (nth_frame_state ⟨idx⟩ i).textures_index ≠ (nth_frame_state ⟨idx⟩ j).textures_index) := by
  revert h
  revert idx
  decide

theorem frame_texture_ring_witness :
    (gl_core_frame ⟨0⟩).1.textures_index = (0 + 1) % GL_CORE_NUM_TEXTURES :=
  (frame_texture_ring 0 (by norm_num)).2.1
theorem fb_set_size_stable (fb : FramebufferM) (s : Size2D) (fmt : Nat) :
    fb_set_size (fb_set_size fb s fmt) s fmt = fb_set_size fb s fmt := by
  by_cases h : s = fb.size ∧ fmt = fb.format
  · simp only [fb_set_size, if_pos h]
  · simp only [fb_set_size, if_neg h]
    simp


/-- C1: for a pass config whose scale type is Input-relative (Source) with factor
    f on each axis, set_pass_info computes the pass OutputSize as
    round(sourceSize * f) per axis, and recomputing with unchanged
    original/source sizes and config returns the identical pass state and size:
    the framebuffer (including its GPU allocation counter) is untouched, so no
    resize and no GPU reallocation occurs. -/
theorem set_pass_info_source_scale (p : PassM) (orig src : Size2D) (info : PassInfoQ)
    (hx : info.scale_type_x = ScaleType.source)
    (hy : info.scale_type_y = ScaleType.source) :
    (pass_set_pass_info p orig src info).2 =
      ⟨(round ((src.width : Rat) * info.scale_x)).toNat,
       (round ((src.height : Rat) * info.scale_y)).toNat⟩
    ∧ pass_set_pass_info (pass_set_pass_info p orig src info).1 orig src info
        = ((pass_set_pass_info p orig src info).1,
           (pass_set_pass_info p orig src info).2) := by
  have hout : ∀ vp : Size2D, get_output_size vp orig src info =
      ⟨(round ((src.width : Rat) * info.scale_x)).toNat,
       (round ((src.height : Rat) * info.scale_y)).toNat⟩ := by
    intro vp
    simp [get_output_size, hx, hy]
  constructor
  · simp [pass_set_pass_info, hout]
  · cases hfp : p.final_pass with
    | true => simp [pass_set_pass_info, hfp, hout]
    | false =>
      cases hfb : p.framebuffer with
      | none => simp [pass_set_pass_info, hfp, hfb, fb_set_size]
      | some fb =>
        simp [pass_set_pass_info, hfp, hfb, fb_set_size_stable]

theorem set_pass_info_source_scale_witness :
    (pass_set_pass_info ⟨false, ⟨1024, 768⟩, default_pass_info, none⟩
        ⟨256, 240⟩ ⟨256, 240⟩
        ⟨ScaleType.source, ScaleType.source, 2, 2, 32856, FilterMode.linear,
         FilterMode.nearest, AddressMode.clampToEdge, 1⟩).2 = ⟨512, 480⟩ := by
  have h := (set_pass_info_source_scale ⟨false, ⟨1024, 768⟩, default_pass_info, none⟩
      ⟨256, 240⟩ ⟨256, 240⟩
      ⟨ScaleType.source, ScaleType.source, 2, 2, 32856, FilterMode.linear,
       FilterMode.nearest, AddressMode.clampToEdge, 1⟩ rfl rfl).1
  rw [h]
  norm_num [Size2D.mk.injEq, round_eq]
  constructor
  · rfl
  · rfl

/-- C10: chain creation fails (returns none) whenever the number of distinct
    declared parameter ids across all passes exceeds the GFX_MAX_PARAMETERS
    bound `cap` enforced at shader_gl_core.cpp lines 617-623; the spec states no
    such cap on tunable parameters. -/
theorem create_fails_beyond_param_cap (cap : Nat) (filt : FilterMode) (inp : CreateInput)
    (h : cap < (all_meta_ids inp.passes).dedup.length) :
    gl_core_filter_chain_create_from_preset cap filt inp = none := by
  cases hc : gl_core_filter_chain_create_from_preset cap filt inp with
  | none => rfl
  | some chain =>
    exfalso
    unfold gl_core_filter_chain_create_from_preset at hc
    split at hc
    · cases hc
    · split at hc
      · cases hc
      · rename_i lastp hlast
        split at hc
        · cases hc
        · split at hc
          · cases hc
          · rename_i pc hp
            obtain ⟨l1, _l2, l3, _l4⟩ := process_passes_params_props cap filt
              inp.passes.length inp.passes 0 [] ⟨[]⟩ pc hp
            have hsub : (all_meta_ids inp.passes).dedup ⊆ pc.1.map (fun m => m.id) := by
              intro s hs
              exact l3 s (List.mem_dedup.mp hs)
            have hle := (List.subperm_of_subset (List.nodup_dedup _) hsub).length_le
            rw [List.length_map] at hle
            have hcap : pc.1.length ≤ cap := by simpa using l1
            omega

theorem create_fails_beyond_param_cap_witness :
    gl_core_filter_chain_create_from_preset 1 FilterMode.linear
      ⟨true, true,
       [⟨⟨RarchFilter.unspec, GfxWrapType.edge, false, 0, none,
          ⟨false, false, false, RarchScaleType.input, RarchScaleType.input, 1, 1, 0, 0⟩⟩,
         some ⟨[⟨"alpha", "Alpha", 1, 0, 2, 1⟩], none, SlangFormat.unknown⟩⟩,
        ⟨⟨RarchFilter.unspec, GfxWrapType.edge, false, 0, none,
          ⟨false, false, false, RarchScaleType.input, RarchScaleType.input, 1, 1, 0, 0⟩⟩,
         some ⟨[⟨"beta", "Beta", 1, 0, 2, 1⟩], none, SlangFormat.unknown⟩⟩],
       true, true⟩ = none :=
  create_fails_beyond_param_cap 1 FilterMode.linear _ (by decide)

/-- C3: a successfully loaded preset with N passes yields a chain with exactly N
    passes when the last pass's fbo.valid flag is false, and N+1 passes when it
    is true, the extra terminal pass being configured as a viewport-scale
    (1.0, 1.0) pass carrying the fixed built-in opaque pass-through vertex and
    fragment shaders. -/
theorem create_pass_count (cap : Nat) (filt : FilterMode) (inp : CreateInput)
    (chain : FilterChainM)
    (h : gl_core_filter_chain_create_from_preset cap filt inp = some chain) :
    chain.passes.length
        = inp.passes.length + (if last_pass_uses_fbo inp then 1 else 0)
    ∧ (last_pass_uses_fbo inp = true →
        chain.passes.getLast? =
          some ⟨final_pass_info filt, some SpirV.opaqueVert, some SpirV.opaqueFrag, 0, none⟩) := by
  unfold gl_core_filter_chain_create_from_preset at h
  split at h
  · cases h
  · split at h
    · cases h
    · rename_i lastp hlast
      split at h
      · cases h
      · split at h
        · cases h
        · rename_i pc hp
          simp only [] at h
          by_cases hres : inp.resolve_ok = false
          · rw [if_pos hres] at h
            cases h
          · rw [if_neg hres] at h
            by_cases hini : inp.init_ok = false
            · rw [if_pos hini] at h
              cases h
            · rw [if_neg hini] at h
              have hchain := Option.some.inj h
              have hlen0 : pc.2.passes.length = inp.passes.length := by
                have := process_passes_length cap filt inp.passes.length inp.passes
                  0 [] ⟨[]⟩ pc rfl hp
                simpa using this
              have hfbo : last_pass_uses_fbo inp = lastp.src.fbo.valid := by
                unfold last_pass_uses_fbo
                rw [hlast]
                rfl
              cases hv : lastp.src.fbo.valid with
              | false =>
                rw [hv] at hchain
                simp only [Bool.false_eq_true, if_false] at hchain
                subst hchain
                rw [hfbo, hv]
                refine ⟨by simp [hlen0], ?_⟩
                intro hcontra
                cases hcontra
              | true =>
                rw [hv] at hchain
                simp only [if_true] at hchain
                have happ := append_final_pass_spec filt pc.2 inp.passes.length hlen0
                subst hchain
                rw [hfbo, hv]
                constructor
                · rw [happ]
                  simp [hlen0]
                · intro htriv
                  rw [happ]
                  simp

/-- A plain preset pass with no fbo override. -/
def sample_pass_src : VideoShaderPassSrc :=
  ⟨RarchFilter.unspec, GfxWrapType.edge, false, 0, none,
   ⟨false, false, false, RarchScaleType.input, RarchScaleType.input, 1, 1, 0, 0⟩⟩

/-- A preset pass whose fbo.valid flag is set. -/
def sample_fbo_pass_src : VideoShaderPassSrc :=
  ⟨RarchFilter.unspec, GfxWrapType.edge, false, 0, none,
   ⟨true, false, false, RarchScaleType.input, RarchScaleType.input, 1, 1, 0, 0⟩⟩

/-- A two-pass preset whose last pass targets an FBO, with every collaborator
    succeeding. -/
def sample_inp_fbo : CreateInput :=
  ⟨true, true,
   [⟨sample_pass_src, some ⟨[], none, SlangFormat.unknown⟩⟩,
    ⟨sample_fbo_pass_src, some ⟨[], none, SlangFormat.unknown⟩⟩],
   true, true⟩

/-- The chain built from sample_inp_fbo. -/
def sample_chain_fbo : FilterChainM :=
  (gl_core_filter_chain_create_from_preset 16 FilterMode.linear sample_inp_fbo).getD ⟨[]⟩

theorem create_pass_count_witness : sample_chain_fbo.passes.length = 3 := by
  have h := (create_pass_count 16 FilterMode.linear sample_inp_fbo sample_chain_fbo rfl).1
  rw [h]
  decide

/-- C2: for a preset in which two passes declare parameters sharing the same id,
    chain creation accepts the preset (returns a chain) if and only if all five
    fields of the duplicate declaration (desc, initial, minimum, maximum, step)
    exactly match the first declaration; any mismatch makes creation fail.
    Stated for an otherwise well-formed preset whose two passes declare one
    parameter each, with the parameter cap not yet reached. -/
theorem create_duplicate_param_iff (cap : Nat) (filt : FilterMode)
    (s1 s2 : VideoShaderPassSrc) (n1 n2 : Option String) (r1 r2 : SlangFormat)
    (a b : MetaParam) (hid : b.id = a.id) (hcap : 1 < cap) :
    (gl_core_filter_chain_create_from_preset cap filt
        ⟨true, true,
         [⟨s1, some ⟨[a], n1, r1⟩⟩, ⟨s2, some ⟨[b], n2, r2⟩⟩],
         true, true⟩).isSome = true
    ↔ (b.desc = a.desc ∧ b.initial = a.initial ∧ b.minimum = a.minimum ∧
       b.maximum = a.maximum ∧ b.step = a.step) := by
  have h0 : ¬ cap ≤ 0 := by omega
  have h1 : ¬ cap ≤ 1 := by omega
  have hc0 : ¬ cap = 0 := by omega
  by_cases hm : (b.desc = a.desc ∧ b.initial = a.initial ∧ b.minimum = a.minimum ∧
      b.maximum = a.maximum ∧ b.step = a.step)
  · simp only [gl_core_filter_chain_create_from_preset, process_passes,
      process_pass_params, List.find?, hid, hm, h0, h1]
    simp [hm, hc0, h1, List.find?]
  · simp only [gl_core_filter_chain_create_from_preset, process_passes,
      process_pass_params, List.find?, hid, hm, h0, h1]
    simp [hm, hc0, h1, List.find?]

theorem create_duplicate_param_iff_witness :
    (gl_core_filter_chain_create_from_preset 16 FilterMode.linear
        ⟨true, true,
         [⟨sample_pass_src, some ⟨[⟨"gamma", "Gamma", 1, 0, 2, 1⟩], none, SlangFormat.unknown⟩⟩,
          ⟨sample_pass_src, some ⟨[⟨"gamma", "Gamma", 1, 0, 2, 1⟩], none, SlangFormat.unknown⟩⟩],
         true, true⟩).isSome = true :=
  (create_duplicate_param_iff 16 FilterMode.linear sample_pass_src sample_pass_src
      none none SlangFormat.unknown SlangFormat.unknown
      ⟨"gamma", "Gamma", 1, 0, 2, 1⟩ ⟨"gamma", "Gamma", 1, 0, 2, 1⟩ rfl (by omega)).mpr
    ⟨rfl, rfl, rfl, rfl, rfl⟩

/-- C6: a preset containing a duplicate parameter id whose minimum field
    mismatches the first declaration makes
    gl_core_filter_chain_create_from_preset return failure (none) regardless of
    how the other collaborators fare, so no chain object - partial or otherwise -
    is ever handed to the caller on this failure path. -/
theorem create_mismatched_duplicate_rejected (conf luts resolve initf : Bool)
    (cap : Nat) (filt : FilterMode) (s1 s2 : VideoShaderPassSrc)
    (n1 n2 : Option String) (r1 r2 : SlangFormat) (a b : MetaParam)
    (hid : b.id = a.id) (hmin : b.minimum ≠ a.minimum) :
    gl_core_filter_chain_create_from_preset cap filt
        ⟨conf, luts, [⟨s1, some ⟨[a], n1, r1⟩⟩, ⟨s2, some ⟨[b], n2, r2⟩⟩], resolve, initf⟩
      = none := by
  cases conf with
  | false => simp [gl_core_filter_chain_create_from_preset]
  | true =>
    cases luts with
    | false => simp [gl_core_filter_chain_create_from_preset]
    | true =>
      by_cases h0 : cap = 0
      · simp [gl_core_filter_chain_create_from_preset, process_passes,
          process_pass_params, h0]
      · by_cases h1 : cap ≤ 1
        · simp [gl_core_filter_chain_create_from_preset, process_passes,
            process_pass_params, h0, h1, List.find?]
        · have hc : ¬ (b.desc = a.desc ∧ b.initial = a.initial ∧ b.minimum = a.minimum ∧
              b.maximum = a.maximum ∧ b.step = a.step) := fun hc => hmin hc.2.2.1
          simp [gl_core_filter_chain_create_from_preset, process_passes,
            process_pass_params, h0, h1, hid, hc, List.find?]

theorem create_mismatched_duplicate_rejected_witness :
    gl_core_filter_chain_create_from_preset 16 FilterMode.linear
        ⟨true, true,
         [⟨sample_pass_src, some ⟨[⟨"gamma", "Gamma", 1, 0, 2, 1⟩], none, SlangFormat.unknown⟩⟩,
          ⟨sample_pass_src, some ⟨[⟨"gamma", "Gamma", 1, 1, 2, 1⟩], none, SlangFormat.unknown⟩⟩],
         true, true⟩ = none :=
  create_mismatched_duplicate_rejected true true true true 16 FilterMode.linear
    sample_pass_src sample_pass_src none none SlangFormat.unknown SlangFormat.unknown
    ⟨"gamma", "Gamma", 1, 0, 2, 1⟩ ⟨"gamma", "Gamma", 1, 1, 2, 1⟩ rfl (by norm_num)
